import Mathlib

/-!
Job lifecycle data model of the SystemLink system client.

Shallow embedding of the job request and response models and of the job
client operations of the repository.  The record types `CreateJobRequest`
and `CancelJobRequest` are translated from
`src/nisystemlink/clients/system/models/_create_job_request.py` and
`src/nisystemlink/clients/system/models/_cancel_job_request.py`
(field names, wire aliases and defaults come from those files).  The
serialization machinery (`JsonModel`, a thin pydantic wrapper in
`nisystemlink/clients/core/_uplink/_json_model.py`) and the `SystemClient`
operations are not among the sources (only their tests are); those parts
are modelled from the spec, and each such definition says so in its doc
comment.
-/

/-- A JSON value, the embedding of the serializable Python `Any`.
Numbers are modelled as integers; objects as ordered association lists,
since Python dicts preserve insertion order.  Heterogeneous payloads are
lists mixing the constructors below. -/
inductive JValue : Type where
  | null : JValue
  | bool : Bool → JValue
  | num : Int → JValue
  | str : String → JValue
  | arr : List JValue → JValue
  | obj : List (String × JValue) → JValue

/-- Embedding of `CreateJobRequest` from
`src/nisystemlink/clients/system/models/_create_job_request.py`:
four fields, each `Optional` with default `None`.  The wire aliases
declared there: `arguments` is aliased to `args`, `target_systems` to
`tgt`, `functions` to `fun`; `metadata` declares no alias. -/
structure CreateJobRequest : Type where
  arguments : Option (List (List JValue)) := none
  target_systems : Option (List String) := none
  functions : Option (List String) := none
  metadata : Option (List (String × JValue)) := none

/-- Embedding of `CancelJobRequest` from
`src/nisystemlink/clients/system/models/_cancel_job_request.py`:
two plain `Optional[str]` fields; neither field declares a wire alias
in that file. -/
structure CancelJobRequest : Type where
  jid : Option String := none
  system_id : Option String := none
deriving DecidableEq

/-- JSON encoding of the `arguments` payload, a list of lists of values. -/
def encodeArgs (a : List (List JValue)) : JValue :=
  JValue.arr (a.map JValue.arr)

/-- JSON decoding of the `arguments` payload: the value must be an array
whose elements are all arrays; anything else is a validation failure. -/
def decodeArgs : JValue → Option (List (List JValue))
  | JValue.arr xs => decodeArgsList xs
  | _ => none
where decodeArgsList : List JValue → Option (List (List JValue))
  | [] => some []
  | JValue.arr ys :: rest => (decodeArgsList rest).map (fun t => ys :: t)
  | _ :: _ => none

/-- JSON encoding of a list of strings. -/
def encodeStrList (l : List String) : JValue :=
  JValue.arr (l.map JValue.str)

/-- JSON decoding of a list of strings. -/
def decodeStrList : JValue → Option (List String)
  | JValue.arr xs => decodeStrs xs
  | _ => none
where decodeStrs : List JValue → Option (List String)
  | [] => some []
  | JValue.str s :: rest => (decodeStrs rest).map (fun t => s :: t)
  | _ :: _ => none

/-- JSON decoding of a string-keyed object (the `metadata` mapping). -/
def decodeObj : JValue → Option (List (String × JValue))
  | JValue.obj fields => some fields
  | _ => none

/-- Whether a JSON value is the explicit null. -/
def JValue.isNull : JValue → Bool
  | JValue.null => true
  | _ => false

/-- Decoding of an `Optional` model field: an absent key decodes to an
unset field, an explicit JSON null likewise; any other present value must
decode with the given element decoder. -/
def decodeOpt {α : Type} (d : JValue → Option α) : Option JValue → Option (Option α)
  | none => some none
  | some v => if v.isNull then some none else (d v).map some

/-- Reading one model field out of a wire object: the wire alias is tried
first, then the semantic field name (populate-by-name, which the
`JsonModel` base enables). -/
def getField (o : List (String × JValue)) (wire fieldName : String) : Option JValue :=
  match o.lookup wire with
  | some v => some v
  | none => o.lookup fieldName

/-- Modelled from the spec: serialization of `CreateJobRequest` by the
`JsonModel` base (not among the sources).  Each set field is emitted under
its declared wire alias — `args`, `tgt`, `fun`, taken from the source
file — while `metadata`, declaring no alias, is emitted under its field
name; unset fields are omitted (the spec: omitted fields are not sent). -/
def CreateJobRequest.toWire (r : CreateJobRequest) : List (String × JValue) :=
  (match r.arguments with
   | some a => [("args", encodeArgs a)]
   | none => []) ++
  (match r.target_systems with
   | some t => [("tgt", encodeStrList t)]
   | none => []) ++
  (match r.functions with
   | some f => [("fun", encodeStrList f)]
   | none => []) ++
  (match r.metadata with
   | some m => [("metadata", JValue.obj m)]
   | none => [])

/-- Modelled from the spec: deserialization of `CreateJobRequest`.  Each
field is read from its wire alias, falling back to the semantic name; a
missing key leaves the field unset; a value of the wrong shape fails
validation. -/
def CreateJobRequest.fromWire (o : List (String × JValue)) : Option CreateJobRequest := do
  let arguments ← decodeOpt decodeArgs (getField o "args" "arguments")
  let target_systems ← decodeOpt decodeStrList (getField o "tgt" "target_systems")
  let functions ← decodeOpt decodeStrList (getField o "fun" "functions")
  let metadata ← decodeOpt decodeObj (getField o "metadata" "metadata")
  some { arguments, target_systems, functions, metadata }

/-- Modelled from the spec: serialization of `CancelJobRequest`.  The
source file declares no wire alias on either field, so both are emitted
under their field names. -/
def CancelJobRequest.toWire (r : CancelJobRequest) : List (String × JValue) :=
  (match r.jid with
   | some j => [("jid", JValue.str j)]
   | none => []) ++
  (match r.system_id with
   | some s => [("system_id", JValue.str s)]
   | none => [])

/-- JSON decoding of a plain string value. -/
def decodeStr : JValue → Option String
  | JValue.str s => some s
  | _ => none

/-- Modelled from the spec: deserialization of `CancelJobRequest`; with no
declared alias, each field is read from its field name only. -/
def CancelJobRequest.fromWire (o : List (String × JValue)) : Option CancelJobRequest := do
  let jid ← decodeOpt decodeStr (getField o "jid" "jid")
  let system_id ← decodeOpt decodeStr (getField o "system_id" "system_id")
  some { jid, system_id }

/-- Modelled from the spec: an in-band error record carried by responses
(the response models are not among the sources); its `message` is optional
at the type level. -/
structure JobError : Type where
  message : Option String := none

/-- Modelled from the spec: the function configuration of a job record as
the server reports it back (`arg`, `tgt`, `fun` wire names). -/
structure JobConfig : Type where
  arg : List (List JValue) := []
  tgt : List String := []
  «fun» : List String := []

/-- Modelled from the spec: a job record held by the remote service and
returned by the listing and query operations. -/
structure Job : Type where
  jid : String
  config : JobConfig := {}
  metadata : List (String × JValue) := []

/-- Modelled from the spec: `CreateJobResponse`, echoing the request
fields under the wire names `arg`, `tgt`, `fun`, with the server-assigned
job id and an optional in-band error. -/
structure CreateJobResponse : Type where
  jid : String
  arg : Option (List (List JValue)) := none
  tgt : Option (List String) := none
  «fun» : Option (List String) := none
  metadata : Option (List (String × JValue)) := none
  error : Option JobError := none

/-- Modelled from the spec: `SystemClient.create_job` (the client is not
among the sources).  On success the server assigns a job id and echoes the
arguments, target systems, functions and metadata of the request back
under the wire names `arg`, `tgt`, `fun`, with a null error. -/
def create_job (newJid : String) (req : CreateJobRequest) : CreateJobResponse :=
  { jid := newJid
    arg := req.arguments
    tgt := req.target_systems
    «fun» := req.functions
    metadata := req.metadata
    error := none }

/-- Modelled from the spec: `SystemClient.list_jobs` (only its tests are
among the sources).  The server keeps the job list; the call returns the
jobs matching the optional `jid` and `system_id` filters, in order.  It is
a total function: filters that match nothing give an empty list, never an
error. -/
def list_jobs (jobs : List Job) (jid : Option String) (system_id : Option String) :
    List Job :=
  jobs.filter (fun j =>
    (match jid with
     | some i => j.jid == i
     | none => true) &&
    (match system_id with
     | some s => j.config.tgt.contains s
     | none => true))

/-- Modelled from the spec: the batch outcome of a cancel call, not
per-job granularity. -/
structure CancelJobsResponse : Type where
  error : Option JobError := none

/-- Modelled from the spec: whether the server recognises the job id of
one cancel request.  The job id is not validated client-side; the server
accepts exactly the ids it has assigned. -/
def jidKnown (validJids : List String) (r : CancelJobRequest) : Bool :=
  match r.jid with
  | some j => validJids.contains j
  | none => false

/-- Modelled from the spec: `SystemClient.cancel_jobs`.  Batch cancel is a
soft-fail operation: the call always returns a response; when every
request carries a known job id the error is null, and when any job id is
invalid the error field is populated in-band, carrying a message, rather
than an exception being raised. -/
def cancel_jobs (validJids : List String) (reqs : List CancelJobRequest) :
    CancelJobsResponse :=
  if reqs.all (jidKnown validJids) then
    { error := none }
  else
    { error := some { message := some "invalid job id" } }

/-- Modelled from the spec: `QueryJobsRequest` with a pass-through filter
string and the paging parameters. -/
structure QueryJobsRequest : Type where
  filter : Option String := none
  skip : Option Nat := none
  take : Option Nat := none

/-- Modelled from the spec: the paged result of a query — the data page
and the total match count. -/
structure QueryJobsPagedResult : Type where
  data : List Job
  count : Nat

/-- Modelled from the spec: the typed error raised on transport or
validation failure, carrying status and message. -/
structure ApiException : Type where
  status : Int
  message : String

/-- Modelled from the spec: one page of matched jobs, after the skip and
take parameters the server applies; `count` is the total match count. -/
def page (matched : List Job) (q : QueryJobsRequest) : QueryJobsPagedResult :=
  { data := (matched.drop (q.skip.getD 0)).take (q.take.getD matched.length)
    count := matched.length }

/-- Modelled from the spec: `SystemClient.query_jobs`.  The filter string
is passed through without client-side validation; a filter the server
rejects as malformed raises the typed `ApiException` (a hard error), while
an accepted filter yields the paged result.  `accepts` stands for the
server-defined filter validation and `sel` for the server-defined
filter semantics, both external to this client. -/
def query_jobs (accepts : String → Bool) (sel : String → Job → Bool)
    (jobs : List Job) (q : QueryJobsRequest) :
    Except ApiException QueryJobsPagedResult :=
  match q.filter with
  | some f =>
    if accepts f then
      Except.ok (page (jobs.filter (sel f)) q)
    else
      Except.error { status := 400, message := "invalid filter expression" }
  | none => Except.ok (page jobs q)

theorem decodeArgsList_map_arr (a : List (List JValue)) :
    decodeArgs.decodeArgsList (a.map JValue.arr) = some a := by
  induction a with
  | nil => rfl
  | cons x xs ih => simp [decodeArgs.decodeArgsList, ih]

theorem decodeArgs_encodeArgs (a : List (List JValue)) :
    decodeArgs (encodeArgs a) = some a := by
  simp [encodeArgs, decodeArgs, decodeArgsList_map_arr]

theorem decodeStrs_map_str (l : List String) :
    decodeStrList.decodeStrs (l.map JValue.str) = some l := by
  induction l with
  | nil => rfl
  | cons x xs ih => simp [decodeStrList.decodeStrs, ih]

theorem decodeStrList_encodeStrList (l : List String) :
    decodeStrList (encodeStrList l) = some l := by
  simp [encodeStrList, decodeStrList, decodeStrs_map_str]

theorem isNull_encodeArgs (a : List (List JValue)) :
    (encodeArgs a).isNull = false := rfl

theorem isNull_encodeStrList (l : List String) :
    (encodeStrList l).isNull = false := rfl

theorem isNull_obj (m : List (String × JValue)) :
    (JValue.obj m).isNull = false := rfl

/-- Claim C1: serializing a `CreateJobRequest` to its aliased wire form and
then deserializing that form yields the request back, with `arguments`,
`target_systems`, `functions` and `metadata` all preserved exactly. -/
theorem createJobRequest_roundtrip (r : CreateJobRequest) :
    CreateJobRequest.fromWire (CreateJobRequest.toWire r) = some r := by
  obtain ⟨a, t, f, m⟩ := r
  cases a <;> cases t <;> cases f <;> cases m <;>
    simp +decide [CreateJobRequest.toWire, CreateJobRequest.fromWire, getField,
      decodeOpt, decodeArgs_encodeArgs, decodeStrList_encodeStrList, decodeObj,
      isNull_encodeArgs, isNull_encodeStrList, isNull_obj, List.lookup]

/-- Claim C2: `arguments` goes on the wire as `args`, `target_systems` as
`tgt` and `functions` as `fun`, and each is read back from that wire name,
in both the serialize and deserialize directions. -/
theorem createJobRequest_wire_aliases (a : List (List JValue)) (t f : List String) :
    CreateJobRequest.toWire { arguments := some a } = [("args", encodeArgs a)]
    ∧ CreateJobRequest.toWire { target_systems := some t } = [("tgt", encodeStrList t)]
    ∧ CreateJobRequest.toWire { functions := some f } = [("fun", encodeStrList f)]
    ∧ CreateJobRequest.fromWire [("args", encodeArgs a)] = some { arguments := some a }
    ∧ CreateJobRequest.fromWire [("tgt", encodeStrList t)] = some { target_systems := some t }
    ∧ CreateJobRequest.fromWire [("fun", encodeStrList f)] = some { functions := some f } := by
  refine ⟨rfl, rfl, rfl, ?_, ?_, ?_⟩ <;>
    simp +decide [CreateJobRequest.fromWire, getField, decodeOpt,
      decodeArgs_encodeArgs, decodeStrList_encodeStrList,
      isNull_encodeArgs, isNull_encodeStrList, List.lookup]

/-- Claim C10: `metadata`, unlike the three aliased fields, is carried on
the wire under the key `metadata` itself, in both directions. -/
theorem createJobRequest_metadata_no_alias (m : List (String × JValue)) :
    CreateJobRequest.toWire { metadata := some m } = [("metadata", JValue.obj m)]
    ∧ CreateJobRequest.fromWire [("metadata", JValue.obj m)]
        = some { metadata := some m } := by
  refine ⟨rfl, ?_⟩
  simp +decide [CreateJobRequest.fromWire, getField, decodeOpt, decodeObj,
    isNull_obj, List.lookup]

/-- Claim C4: every field of `CreateJobRequest` is optional — a request is
constructible from any combination of set and unset fields, an omitted
field defaults to the unset value `none`, and an unset field is
distinguishable on the wire from a field set to an empty collection (the
unset field is omitted, the empty one is sent as an empty array). -/
theorem createJobRequest_fields_optional :
    (∀ (a : Option (List (List JValue))) (t f : Option (List String))
        (m : Option (List (String × JValue))),
      (CreateJobRequest.mk a t f m).arguments = a
      ∧ (CreateJobRequest.mk a t f m).target_systems = t
      ∧ (CreateJobRequest.mk a t f m).functions = f
      ∧ (CreateJobRequest.mk a t f m).metadata = m)
    ∧ ({} : CreateJobRequest).arguments = none
    ∧ ({} : CreateJobRequest).target_systems = none
    ∧ ({} : CreateJobRequest).functions = none
    ∧ ({} : CreateJobRequest).metadata = none
    ∧ CreateJobRequest.toWire {} = []
    ∧ CreateJobRequest.toWire { arguments := some [] } = [("args", JValue.arr [])]
    ∧ ((CreateJobRequest.toWire {}).map Prod.fst).contains "args" = false
    ∧ ((CreateJobRequest.toWire { arguments := some [] }).map Prod.fst).contains "args"
        = true :=
  ⟨fun _ _ _ _ => ⟨rfl, rfl, rfl, rfl⟩, rfl, rfl, rfl, rfl, rfl, rfl, rfl, rfl⟩

/-- Claim C5: `arguments` accepts any list of lists of values, with no
constraint on the inner element types beyond being serializable JSON
values — construction succeeds and the payload survives the wire. -/
theorem createJobRequest_arguments_unconstrained (xss : List (List JValue)) :
    ({ arguments := some xss } : CreateJobRequest).arguments = some xss
    ∧ decodeArgs (encodeArgs xss) = some xss :=
  ⟨rfl, decodeArgs_encodeArgs xss⟩

/-- Claim C3, counterexample: evaluating the embedded `CancelJobRequest`
serializer — faithful to the source file, where `system_id` declares no
wire alias — at a concrete request shows that `system_id` does NOT go on
the wire under `tgt`: the serialized form has no `tgt` key, the value
travels under the field name instead, and deserializing a wire object that
carries the value under `tgt` leaves `system_id` unset. -/
theorem cancelJobRequest_system_id_not_tgt :
    (CancelJobRequest.toWire { jid := some "j1", system_id := some "s1" }).lookup "tgt"
        = none
    ∧ (CancelJobRequest.toWire { jid := some "j1", system_id := some "s1" }).lookup
        "system_id" = some (JValue.str "s1")
    ∧ CancelJobRequest.fromWire [("jid", JValue.str "j1"), ("tgt", JValue.str "s1")]
        = some { jid := some "j1", system_id := none } :=
  ⟨rfl, rfl, rfl⟩

/-- Actual behaviour of the embedded `CancelJobRequest` serializer: `jid`
and `system_id` travel under their own field names, and the round trip
through the wire form is exact — there is just no `tgt` alias. -/
theorem cancelJobRequest_roundtrip_field_names (r : CancelJobRequest) :
    CancelJobRequest.fromWire (CancelJobRequest.toWire r) = some r := by
  obtain ⟨j, s⟩ := r
  cases j <;> cases s <;>
    simp +decide [CancelJobRequest.toWire, CancelJobRequest.fromWire, getField,
      decodeOpt, decodeStr, JValue.isNull, List.lookup]

/-- Claim C9: creating a job from the request with
`arguments=[["A description"]]`, `target_systems=["sys-1"]`,
`functions=["system.set_computer_desc"]` yields a response whose `arg`,
`tgt` and `fun` fields equal those inputs exactly. -/
theorem create_job_echoes_fields (newJid : String) :
    (create_job newJid
        { arguments := some [[JValue.str "A description"]],
          target_systems := some ["sys-1"],
          functions := some ["system.set_computer_desc"] }).arg
        = some [[JValue.str "A description"]]
    ∧ (create_job newJid
        { arguments := some [[JValue.str "A description"]],
          target_systems := some ["sys-1"],
          functions := some ["system.set_computer_desc"] }).tgt
        = some ["sys-1"]
    ∧ (create_job newJid
        { arguments := some [[JValue.str "A description"]],
          target_systems := some ["sys-1"],
          functions := some ["system.set_computer_desc"] }).«fun»
        = some ["system.set_computer_desc"] :=
  ⟨rfl, rfl, rfl⟩

/-- Claim C6: a `list_jobs` call whose `jid` filter or whose `system_id`
filter matches no job on the server returns the empty list; the operation
is a total function, so no exception arises. -/
theorem list_jobs_no_match (jobs : List Job) (jid system_id : Option String)
    (h : (∃ i, jid = some i ∧ ∀ j ∈ jobs, j.jid ≠ i)
       ∨ (∃ s, system_id = some s ∧ ∀ j ∈ jobs, s ∉ j.config.tgt)) :
    list_jobs jobs jid system_id = [] := by
  rcases h with ⟨i, rfl, hi⟩ | ⟨s, rfl, hs⟩ <;>
    refine List.filter_eq_nil_iff.mpr (fun j hj => ?_)
  · simp [hi j hj]
  · simp [hs j hj]

theorem list_jobs_no_match_witness :
    list_jobs [{ jid := "j1", config := { tgt := ["s1"] } }] (some "unknown") none = []
    ∧ list_jobs [{ jid := "j1", config := { tgt := ["s1"] } }] none (some "s2") = [] :=
  ⟨list_jobs_no_match _ _ _ (Or.inl ⟨"unknown", rfl, by decide⟩),
   list_jobs_no_match _ _ _ (Or.inr ⟨"s2", rfl, by decide⟩)⟩

/-- Claim C7: `cancel_jobs` always returns a response (it is a total
function, so there is no exception and no local failure); when some
request carries an invalid job id the error field of the response is
populated and carries a message, and when every request carries a valid
job id the error field is null. -/
theorem cancel_jobs_error_contract (validJids : List String)
    (reqs : List CancelJobRequest) :
    ((∀ r ∈ reqs, jidKnown validJids r = true) →
      (cancel_jobs validJids reqs).error = none)
    ∧ (∀ r ∈ reqs, jidKnown validJids r = false →
      ∃ e, (cancel_jobs validJids reqs).error = some e
        ∧ ∃ msg, e.message = some msg) := by
  constructor
  · intro hall
    simp [cancel_jobs, List.all_eq_true.mpr hall]
  · intro r hr hbad
    have hnot : reqs.all (jidKnown validJids) = false := by
      refine List.all_eq_false.mpr ⟨r, hr, ?_⟩
      simp [hbad]
    exact ⟨{ message := some "invalid job id" }, by simp [cancel_jobs, hnot],
      "invalid job id", rfl⟩

theorem cancel_jobs_error_contract_witness :
    (cancel_jobs ["j1"] [{ jid := some "j1", system_id := some "s1" }]).error = none
    ∧ ∃ e, (cancel_jobs ["j1"]
        [{ jid := some "bad", system_id := some "s1" }]).error = some e
      ∧ ∃ msg, e.message = some msg :=
  ⟨(cancel_jobs_error_contract ["j1"]
      [{ jid := some "j1", system_id := some "s1" }]).1 (by decide),
   (cancel_jobs_error_contract ["j1"]
      [{ jid := some "bad", system_id := some "s1" }]).2
      { jid := some "bad", system_id := some "s1" } (by decide) (by decide)⟩

/-- Claim C8: a `query_jobs` call whose filter string the server rejects
as malformed yields the typed `ApiException` as a hard error, not a
result — in particular not a silent empty result. -/
theorem query_jobs_malformed_filter (accepts : String → Bool)
    (sel : String → Job → Bool) (jobs : List Job) (q : QueryJobsRequest)
    (f : String) (hf : q.filter = some f) (hbad : accepts f = false) :
    query_jobs accepts sel jobs q
      = Except.error { status := 400, message := "invalid filter expression" } := by
  simp [query_jobs, hf, hbad]

theorem query_jobs_malformed_filter_witness :
    query_jobs (fun _ => false) (fun _ _ => false) []
      { filter := some "jid=Invalid_jid" }
      = Except.error { status := 400, message := "invalid filter expression" } :=
  query_jobs_malformed_filter (fun _ => false) (fun _ _ => false) []
    { filter := some "jid=Invalid_jid" } "jid=Invalid_jid" rfl rfl
